import Mathlib

/-!
Shallow embedding of the BookStore API (`src/app.py`) and verification of
its specification.

Modelling conventions:
* A JSON scalar value is `Value`: strings and numbers (Python ints and
  floats are both modelled as `Rat`).
* A request payload (a parsed JSON object, i.e. a Python dict) is an
  association list `Payload`; `pget` is `data[k]` / `data.get(k)` and
  `hasKey` is `k in data`.
* A table (Python dict keyed by id, insertion-ordered) is a `List` of
  records carrying their own `id`; `dictGet`, `dictPut`, `dictDel`,
  `dictContains` mirror `d.get(k)`, `d[k] = v` (replace in place or
  append), `del d[k]` and `k in d`, preserving insertion order exactly as
  CPython dicts do.
* Timestamps (`datetime.utcnow().isoformat() + "Z"`) are modelled as an
  abstract monotone clock: each handler receives the current instant
  `now : Nat` as an explicit argument; the seed timestamp
  "2024-01-01T00:00:00Z" is instant `0`.
* `str(uuid.uuid4())` is modelled by passing the generated id `newId` as
  an explicit argument to the create handlers.
* A handler returning a Python `TypeError` crash (comparing a non-number
  to a number in the price filters) is modelled by `Option`: `none` is the
  crash, `some r` the HTTP response `r`.
-/

/-- A JSON scalar as stored in a record field or a payload. -/
inductive Value where
  | str (s : String)
  | num (q : Rat)
deriving DecidableEq, Repr

/-- A parsed JSON object body: association list from key to value. -/
abbrev Payload := List (String × Value)

/-- `data[k]` / `data.get(k)`: first binding of key `k`, if any. -/
def pget (d : Payload) (k : String) : Option Value :=
  (d.find? (fun kv => kv.1 == k)).map (·.2)

/-- `k in data`. -/
def hasKey (d : Payload) (k : String) : Bool :=
  d.any (fun kv => kv.1 == k)

/-- A Book record: the dicts built by the handlers always carry exactly
these keys. `id`, `created_at`, `updated_at` are always server-generated;
the payload-supplied fields hold whatever JSON scalar the client sent. -/
structure Book where
  id : String
  title : Value
  author_id : Value
  isbn : Value
  published_year : Value
  price : Value
  stock : Value
  created_at : Nat
  updated_at : Nat
deriving DecidableEq, Repr

/-- An Author record. -/
structure Author where
  id : String
  name : Value
  birth_year : Value
  nationality : Value
  created_at : Nat
  updated_at : Nat
deriving DecidableEq, Repr

/-- The two in-memory tables (`books` and `authors` module globals). -/
structure AppState where
  books : List Book
  authors : List Author
deriving DecidableEq, Repr

/-- `d.get(k)` on an id-keyed table: first record whose key matches. -/
def dictGet (key : α → String) (xs : List α) (i : String) : Option α :=
  xs.find? (fun x => key x == i)

/-- `k in d` on an id-keyed table. -/
def dictContains (key : α → String) (xs : List α) (i : String) : Bool :=
  (dictGet key xs i).isSome

/-- `d[key b] = b`: replace the existing entry in place, else append
(CPython dict assignment preserves the position of an existing key). -/
def dictPut (key : α → String) : List α → α → List α
  | [], b => [b]
  | x :: xs, b => if key x == key b then b :: xs else x :: dictPut key xs b

/-- `del d[i]`: drop the entry with key `i`. -/
def dictDel (key : α → String) : List α → String → List α
  | [], _ => []
  | x :: xs, i => if key x == i then xs else x :: dictDel key xs i

/-- Python `b["author_id"] == author_id` where the right side is a query
string: `==` never raises; a non-string stored value compares unequal. -/
def Value.eqStr : Value → String → Bool
  | .str s, t => s == t
  | _, _ => false

/-- Python `b["price"] >= min_price` with `min_price : float`: defined
when the stored value is a number, a `TypeError` (`none`) otherwise. -/
def Value.geNum : Value → Rat → Option Bool
  | .num p, q => some (q ≤ p)
  | _, _ => none

/-- Python `b["price"] <= max_price`, same conventions as `Value.geNum`. -/
def Value.leNum : Value → Rat → Option Bool
  | .num p, q => some (p ≤ q)
  | _, _ => none

/-- A list comprehension whose predicate may raise: `none` as soon as the
predicate is undefined on an element. -/
def filterOpt (p : α → Option Bool) : List α → Option (List α)
  | [] => some []
  | x :: xs => do
      let keep ← p x
      let rest ← filterOpt p xs
      pure (if keep then x :: rest else rest)

/-- A response body, as produced by the handlers' `jsonify` calls. -/
inductive Body where
  | booksList (bs : List Book) (count : Nat)
  | book (b : Book)
  | authorsList (as : List Author) (count : Nat)
  | author (a : Author)
  | authorBooks (a : Author) (bs : List Book) (count : Nat)
  | err (msg : String)
  | empty
deriving DecidableEq, Repr

/-- An HTTP response: status code and JSON body. -/
structure Resp where
  status : Nat
  body : Body
deriving DecidableEq, Repr

/-- `GET /api/v1/books` (`get_books` in `src/app.py`). `aid?` is the raw
`author_id` query string (absent or present, possibly empty); `minp`,
`maxp` are the `float`-coerced `min_price` / `max_price` (Flask yields
`None` when absent or non-numeric). `if author_id:` is Python string
truthiness; the price filters may raise `TypeError` (`none`). -/
def get_books (st : AppState) (aid? : Option String)
    (minp maxp : Option Rat) : Option Resp := do
  let fb := st.books
  let fb := match aid? with
    | some s => if s == "" then fb else fb.filter (fun b => b.author_id.eqStr s)
    | none => fb
  let fb ← match minp with
    | some q => filterOpt (fun b => b.price.geNum q) fb
    | none => pure fb
  let fb ← match maxp with
    | some q => filterOpt (fun b => b.price.leNum q) fb
    | none => pure fb
  pure ⟨200, .booksList fb fb.length⟩

/-- `GET /api/v1/books/{id}` (`get_book`). -/
def get_book (st : AppState) (bid : String) : Resp :=
  match dictGet Book.id st.books bid with
  | none => ⟨404, .err "Book not found"⟩
  | some b => ⟨200, .book b⟩

/-- The `required_fields` list of `create_book` and `update_book`. -/
def requiredBookFields : List String :=
  ["title", "author_id", "isbn", "published_year", "price"]

/-- The validation loop `for field in required_fields: if field not in
data: return 400`: the first required field absent from the payload. -/
def findMissing (fields : List String) (d : Payload) : Option String :=
  fields.find? (fun f => !hasKey d f)

/-- The book dict literal built by `create_book` / `update_book` from a
validated payload. Validation guarantees the five required keys are
present, so the `getD` defaults on them are never consulted; the `getD`
on `stock` is the genuine `data.get('stock', 0)`. -/
def buildBook (d : Payload) (bid : String) (created updated : Nat) : Book :=
  { id := bid
    title := (pget d "title").getD (.str "")
    author_id := (pget d "author_id").getD (.str "")
    isbn := (pget d "isbn").getD (.str "")
    published_year := (pget d "published_year").getD (.num 0)
    price := (pget d "price").getD (.num 0)
    stock := (pget d "stock").getD (.num 0)
    created_at := created
    updated_at := updated }

/-- `POST /api/v1/books` (`create_book`): validate, then insert a record
with a fresh uuid `newId` and `created_at = updated_at = now`. -/
def create_book (st : AppState) (d : Payload) (newId : String) (now : Nat) :
    Resp × AppState :=
  match findMissing requiredBookFields d with
  | some f => (⟨400, .err ("Missing required field: " ++ f)⟩, st)
  | none =>
      let b := buildBook d newId now now
      (⟨201, .book b⟩, { st with books := dictPut Book.id st.books b })

/-- `PUT /api/v1/books/{id}` (`update_book`): not-found check first, then
validation, then full replacement preserving `created_at`. -/
def update_book (st : AppState) (bid : String) (d : Payload) (now : Nat) :
    Resp × AppState :=
  match dictGet Book.id st.books bid with
  | none => (⟨404, .err "Book not found"⟩, st)
  | some old =>
      match findMissing requiredBookFields d with
      | some f => (⟨400, .err ("Missing required field: " ++ f)⟩, st)
      | none =>
          let b := buildBook d bid old.created_at now
          (⟨200, .book b⟩, { st with books := dictPut Book.id st.books b })

/-- The field-by-field merge of `partial_update_book`: each of the six
schema keys present in the payload overwrites the record's field. -/
def mergeBook (book : Book) (d : Payload) : Book :=
  let book := match pget d "title" with
    | some v => { book with title := v } | none => book
  let book := match pget d "author_id" with
    | some v => { book with author_id := v } | none => book
  let book := match pget d "isbn" with
    | some v => { book with isbn := v } | none => book
  let book := match pget d "published_year" with
    | some v => { book with published_year := v } | none => book
  let book := match pget d "price" with
    | some v => { book with price := v } | none => book
  match pget d "stock" with
    | some v => { book with stock := v } | none => book

/-- `PATCH /api/v1/books/{id}` (`partial_update_book`): not-found check,
merge the provided fields, always stamp `updated_at = now`. -/
def partial_update_book (st : AppState) (bid : String) (d : Payload)
    (now : Nat) : Resp × AppState :=
  match dictGet Book.id st.books bid with
  | none => (⟨404, .err "Book not found"⟩, st)
  | some book =>
      let b := { mergeBook book d with updated_at := now }
      (⟨200, .book b⟩, { st with books := dictPut Book.id st.books b })

/-- `DELETE /api/v1/books/{id}` (`delete_book`). -/
def delete_book (st : AppState) (bid : String) : Resp × AppState :=
  if dictContains Book.id st.books bid then
    (⟨204, .empty⟩, { st with books := dictDel Book.id st.books bid })
  else
    (⟨404, .err "Book not found"⟩, st)

/-- `GET /api/v1/authors` (`get_authors`). -/
def get_authors (st : AppState) : Resp :=
  ⟨200, .authorsList st.authors st.authors.length⟩

/-- `GET /api/v1/authors/{id}` (`get_author`). A record dict is never
empty, so `if not author:` is exactly the `None` check. -/
def get_author (st : AppState) (aid : String) : Resp :=
  match dictGet Author.id st.authors aid with
  | none => ⟨404, .err "Author not found"⟩
  | some a => ⟨200, .author a⟩

/-- The `required_fields` list of `create_author` and `update_author`. -/
def requiredAuthorFields : List String := ["name", "birth_year", "nationality"]

/-- The author dict literal built by `create_author` / `update_author`
from a validated payload; as in `buildBook`, the `getD` defaults on the
required keys are never consulted. -/
def buildAuthor (d : Payload) (aid : String) (created updated : Nat) : Author :=
  { id := aid
    name := (pget d "name").getD (.str "")
    birth_year := (pget d "birth_year").getD (.num 0)
    nationality := (pget d "nationality").getD (.str "")
    created_at := created
    updated_at := updated }

/-- `POST /api/v1/authors` (`create_author`). -/
def create_author (st : AppState) (d : Payload) (newId : String) (now : Nat) :
    Resp × AppState :=
  match findMissing requiredAuthorFields d with
  | some f => (⟨400, .err ("Missing required field: " ++ f)⟩, st)
  | none =>
      let a := buildAuthor d newId now now
      (⟨201, .author a⟩, { st with authors := dictPut Author.id st.authors a })

/-- `PUT /api/v1/authors/{id}` (`update_author`). -/
def update_author (st : AppState) (aid : String) (d : Payload) (now : Nat) :
    Resp × AppState :=
  match dictGet Author.id st.authors aid with
  | none => (⟨404, .err "Author not found"⟩, st)
  | some old =>
      match findMissing requiredAuthorFields d with
      | some f => (⟨400, .err ("Missing required field: " ++ f)⟩, st)
      | none =>
          let a := buildAuthor d aid old.created_at now
          (⟨200, .author a⟩, { st with authors := dictPut Author.id st.authors a })

/-- `DELETE /api/v1/authors/{id}` (`delete_author`). -/
def delete_author (st : AppState) (aid : String) : Resp × AppState :=
  if dictContains Author.id st.authors aid then
    (⟨204, .empty⟩, { st with authors := dictDel Author.id st.authors aid })
  else
    (⟨404, .err "Author not found"⟩, st)

/-- `GET /api/v1/authors/{id}/books` (`get_author_books`). -/
def get_author_books (st : AppState) (aid : String) : Resp :=
  match dictGet Author.id st.authors aid with
  | none => ⟨404, .err "Author not found"⟩
  | some a =>
      let abs := st.books.filter (fun b => b.author_id.eqStr aid)
      ⟨200, .authorBooks a abs abs.length⟩

/-- The three seed books (module-level `books` literal); the seed
timestamp "2024-01-01T00:00:00Z" is instant 0. -/
def seedBooks : List Book :=
  [ { id := "1", title := .str "The Great Gatsby", author_id := .str "1",
      isbn := .str "978-0-7432-7356-5", published_year := .num 1925,
      price := .num (1299/100), stock := .num 42,
      created_at := 0, updated_at := 0 },
    { id := "2", title := .str "To Kill a Mockingbird", author_id := .str "2",
      isbn := .str "978-0-06-112008-4", published_year := .num 1960,
      price := .num (1499/100), stock := .num 28,
      created_at := 0, updated_at := 0 },
    { id := "3", title := .str "1984", author_id := .str "3",
      isbn := .str "978-0-452-28423-4", published_year := .num 1949,
      price := .num (1399/100), stock := .num 35,
      created_at := 0, updated_at := 0 } ]

/-- The three seed authors (module-level `authors` literal). -/
def seedAuthors : List Author :=
  [ { id := "1", name := .str "F. Scott Fitzgerald", birth_year := .num 1896,
      nationality := .str "American", created_at := 0, updated_at := 0 },
    { id := "2", name := .str "Harper Lee", birth_year := .num 1926,
      nationality := .str "American", created_at := 0, updated_at := 0 },
    { id := "3", name := .str "George Orwell", birth_year := .num 1903,
      nationality := .str "British", created_at := 0, updated_at := 0 } ]

/-- The state at startup, before any request. -/
def seedState : AppState := ⟨seedBooks, seedAuthors⟩

/-- A mutating request, for reasoning about operation sequences. The
uuid argument of the create operations is part of the operation datum. -/
inductive Op where
  | createBook (d : Payload) (newId : String)
  | updateBook (bid : String) (d : Payload)
  | patchBook (bid : String) (d : Payload)
  | deleteBook (bid : String)
  | createAuthor (d : Payload) (newId : String)
  | updateAuthor (aid : String) (d : Payload)
  | deleteAuthor (aid : String)
deriving DecidableEq, Repr

/-- The state transition of one mutating request handled at instant `now`. -/
def step (st : AppState) (op : Op) (now : Nat) : AppState :=
  match op with
  | .createBook d newId => (create_book st d newId now).2
  | .updateBook bid d => (update_book st bid d now).2
  | .patchBook bid d => (partial_update_book st bid d now).2
  | .deleteBook bid => (delete_book st bid).2
  | .createAuthor d newId => (create_author st d newId now).2
  | .updateAuthor aid d => (update_author st aid d now).2
  | .deleteAuthor aid => (delete_author st aid).2

/-- Run a timed sequence of mutating requests. -/
def run (st : AppState) : List (Op × Nat) → AppState
  | [] => st
  | (op, t) :: rest => run (step st op t) rest

/-- The clock is monotone along the trace: each request instant is at
least the previous one (and at least the start instant). -/
def chrono : Nat → List (Op × Nat) → Bool
  | _, [] => true
  | t, (_, t') :: rest => t ≤ t' && chrono t' rest

/-- All record timestamps in the state are coherent (`created_at <=
updated_at`) and no later than instant `t`. -/
def StateOK (st : AppState) (t : Nat) : Prop :=
  (∀ b ∈ st.books, b.created_at ≤ b.updated_at ∧ b.updated_at ≤ t) ∧
  (∀ a ∈ st.authors, a.created_at ≤ a.updated_at ∧ a.updated_at ≤ t)

/-- The six schema keys `partial_update_book` consults; every other
payload key is never read. -/
def bookPatchKeys : List String :=
  ["title", "author_id", "isbn", "published_year", "price", "stock"]

/-- An example payload with every required Book field but `price`
(the §8 scenario "`POST /books` omitting `price`"). -/
def exPayloadNoPrice : Payload :=
  [("title", .str "The Catcher in the Rye"), ("author_id", .str "1"),
   ("isbn", .str "978-0-316-76948-0"), ("published_year", .num 1951)]

/-- An example payload with all required Book fields (no `stock`). -/
def exPayloadFull : Payload :=
  [("title", .str "The Catcher in the Rye"), ("author_id", .str "1"),
   ("isbn", .str "978-0-316-76948-0"), ("published_year", .num 1951),
   ("price", .num (1199/100))]

/-- An example PATCH payload touching only `stock`. -/
def exPayloadStock : Payload := [("stock", .num 5)]

/-- An example timed request trace from the seed state. -/
def exTrace : List (Op × Nat) :=
  [(.createBook exPayloadFull "b9", 3), (.patchBook "1" exPayloadStock, 4),
   (.updateBook "2" exPayloadFull, 7), (.deleteBook "3", 8),
   (.createAuthor [("name", .str "Ernest Hemingway"),
     ("birth_year", .num 1899), ("nationality", .str "American")] "a9", 9),
   (.updateAuthor "a9" [("name", .str "E. Hemingway"),
     ("birth_year", .num 1899), ("nationality", .str "American")], 12),
   (.deleteAuthor "1", 12)]

/-- Whether a JSON scalar is a number. -/
def Value.isNum : Value → Bool
  | .num _ => true
  | .str _ => false

/-- The rational carried by a numeric JSON scalar (0 on strings; only
consulted under an `isNum` hypothesis). -/
def Value.toNum : Value → Rat
  | .num q => q
  | .str _ => 0

/-- Every book in the list has a numeric `price`, so the Python price
comparisons cannot raise. -/
def NumericPrices (bs : List Book) : Prop :=
  ∀ b ∈ bs, b.price.isNum = true

instance : DecidablePred NumericPrices := fun bs =>
  inferInstanceAs (Decidable (∀ b ∈ bs, b.price.isNum = true))

/-- Modelled from the spec: the §4.3 filter chain exactly as the claim
words it — the author filter applies whenever `author_id` is provided,
including when it is the empty string. For comparison with `get_books`. -/
def list_books_claim (st : AppState) (aid? : Option String)
    (minp maxp : Option Rat) : List Book :=
  let l0 := match aid? with
    | some s => st.books.filter (fun b => b.author_id = .str s)
    | none => st.books
  let l1 := match minp with
    | some q => l0.filter (fun b => q ≤ b.price.toNum)
    | none => l0
  match maxp with
    | some q => l1.filter (fun b => b.price.toNum ≤ q)
    | none => l1

/-- The §4.3 filter chain as the code implements it: the author filter
applies when `author_id` is provided and non-empty. -/
def list_books_spec (st : AppState) (aid? : Option String)
    (minp maxp : Option Rat) : List Book :=
  let l0 := match aid? with
    | some s =>
        if s = "" then st.books
        else st.books.filter (fun b => b.author_id = .str s)
    | none => st.books
  let l1 := match minp with
    | some q => l0.filter (fun b => q ≤ b.price.toNum)
    | none => l0
  match maxp with
    | some q => l1.filter (fun b => b.price.toNum ≤ q)
    | none => l1

/-- The instant of the last request of a trace (the start instant for an
empty trace). -/
def endTime (t : Nat) : List (Op × Nat) → Nat
  | [] => t
  | (_, t2) :: rest => endTime t2 rest

/-! ### Dictionary lemmas -/

theorem dictGet_mem {key : α → String} {xs : List α} {i : String} {x : α}
    (h : dictGet key xs i = some x) : x ∈ xs :=
  List.mem_of_find?_eq_some h

theorem dictGet_key {key : α → String} {xs : List α} {i : String} {x : α}
    (h : dictGet key xs i = some x) : key x = i := by
  have := List.find?_some h
  simpa using this

theorem mem_dictPut {key : α → String} {xs : List α} {b x : α}
    (h : x ∈ dictPut key xs b) : x = b ∨ x ∈ xs := by
  induction xs with
  | nil => simpa [dictPut] using h
  | cons y ys ih =>
      by_cases hk : key y == key b
      · simp only [dictPut, if_pos hk, List.mem_cons] at h
        rcases h with h | h
        · exact Or.inl h
        · exact Or.inr (List.mem_cons_of_mem _ h)
      · simp only [dictPut, if_neg hk, List.mem_cons] at h
        rcases h with h | h
        · exact Or.inr (h ▸ List.mem_cons_self _ _)
        · rcases ih h with h' | h'
          · exact Or.inl h'
          · exact Or.inr (List.mem_cons_of_mem _ h')

theorem dictPut_fresh {key : α → String} {xs : List α} {b : α}
    (h : ∀ x ∈ xs, key x ≠ key b) : dictPut key xs b = xs ++ [b] := by
  induction xs with
  | nil => rfl
  | cons y ys ih =>
      have hy : (key y == key b) = false := by
        simpa using h y (List.mem_cons_self _ _)
      simp only [dictPut, hy, Bool.false_eq_true, if_neg, not_false_iff,
        List.cons_append, List.cons.injEq, true_and]
      exact ih (fun x hx => h x (List.mem_cons_of_mem _ hx))

theorem dictGet_dictPut_self {key : α → String} {xs : List α} {b : α} :
    dictGet key (dictPut key xs b) (key b) = some b := by
  induction xs with
  | nil => simp [dictGet, dictPut, List.find?]
  | cons y ys ih =>
      by_cases hk : key y == key b
      · simp [dictGet, dictPut, hk, List.find?]
      · simp only [dictPut, hk, Bool.false_eq_true, if_neg, not_false_iff]
        simpa [dictGet, List.find?, hk] using ih

theorem dictGet_dictPut_ne {key : α → String} {xs : List α} {b : α}
    {j : String} (h : j ≠ key b) :
    dictGet key (dictPut key xs b) j = dictGet key xs j := by
  induction xs with
  | nil =>
      have : (key b == j) = false := by simpa using (Ne.symm h)
      simp [dictGet, dictPut, List.find?, this]
  | cons y ys ih =>
      by_cases hk : key y == key b
      · have hyb : key y = key b := by simpa using hk
        have h1 : (key b == j) = false := by simpa using (Ne.symm h)
        have h2 : (key y == j) = false := by
          simpa [hyb] using (Ne.symm h)
        simp [dictGet, dictPut, hk, List.find?, h1, h2]
      · by_cases hyj : key y == j
        · simp [dictGet, dictPut, hk, List.find?, hyj]
        · simpa [dictGet, dictPut, hk, List.find?, hyj] using ih

theorem mem_dictDel {key : α → String} {xs : List α} {i : String} {x : α}
    (h : x ∈ dictDel key xs i) : x ∈ xs := by
  induction xs with
  | nil => simp [dictDel] at h
  | cons y ys ih =>
      by_cases hk : key y == i
      · simp only [dictDel, if_pos hk] at h
        exact List.mem_cons_of_mem _ h
      · simp only [dictDel, if_neg hk, List.mem_cons] at h
        rcases h with h | h
        · exact h ▸ List.mem_cons_self _ _
        · exact List.mem_cons_of_mem _ (ih h)

theorem dictContains_false_dictGet {key : α → String} {xs : List α}
    {i : String} (h : dictContains key xs i = false) :
    dictGet key xs i = none := by
  unfold dictContains at h
  exact Option.not_isSome_iff_eq_none.mp (by simp [h])

/-! ### Handler-level helper lemmas -/

/-- The six sequential `if k in data:` merges of `partial_update_book`
amount to a per-field right-biased merge. -/
theorem mergeBook_eq (book : Book) (d : Payload) :
    mergeBook book d =
      { book with
        title := (pget d "title").getD book.title
        author_id := (pget d "author_id").getD book.author_id
        isbn := (pget d "isbn").getD book.isbn
        published_year := (pget d "published_year").getD book.published_year
        price := (pget d "price").getD book.price
        stock := (pget d "stock").getD book.stock } := by
  unfold mergeBook
  cases pget d "title" <;> cases pget d "author_id" <;> cases pget d "isbn" <;>
    cases pget d "published_year" <;> cases pget d "price" <;>
    cases pget d "stock" <;> rfl

/-- `Value.eqStr` decides equality with a string value. -/
theorem Value.eqStr_iff {v : Value} {s : String} :
    v.eqStr s = true ↔ v = .str s := by
  cases v <;> simp [Value.eqStr]

theorem filterOpt_cons (p : α → Option Bool) (x : α) (xs : List α) :
    filterOpt p (x :: xs) = (p x).bind fun keep =>
      (filterOpt p xs).bind fun rest =>
        some (if keep then x :: rest else rest) := rfl

theorem filterOpt_geNum {q : Rat} {l : List Book} (h : NumericPrices l) :
    filterOpt (fun b => b.price.geNum q) l =
      some (l.filter (fun b => q ≤ b.price.toNum)) := by
  induction l with
  | nil => rfl
  | cons b bs ih =>
      have hb := h b (List.mem_cons_self _ _)
      have hrest := ih (fun x hx => h x (List.mem_cons_of_mem _ hx))
      cases hv : b.price with
      | str s => rw [hv] at hb; simp [Value.isNum] at hb
      | num p =>
          simp only [filterOpt_cons]
          rw [hv, hrest]
          by_cases hq : q ≤ p <;>
            simp [Value.geNum, List.filter_cons, hv, Value.toNum, hq]

theorem filterOpt_leNum {q : Rat} {l : List Book} (h : NumericPrices l) :
    filterOpt (fun b => b.price.leNum q) l =
      some (l.filter (fun b => b.price.toNum ≤ q)) := by
  induction l with
  | nil => rfl
  | cons b bs ih =>
      have hb := h b (List.mem_cons_self _ _)
      have hrest := ih (fun x hx => h x (List.mem_cons_of_mem _ hx))
      cases hv : b.price with
      | str s => rw [hv] at hb; simp [Value.isNum] at hb
      | num p =>
          simp only [filterOpt_cons]
          rw [hv, hrest]
          by_cases hq : p ≤ q <;>
            simp [Value.leNum, List.filter_cons, hv, Value.toNum, hq]

theorem NumericPrices.filter {l : List Book} (h : NumericPrices l)
    (p : Book → Bool) : NumericPrices (l.filter p) :=
  fun b hb => h b (List.mem_of_mem_filter hb)

/-! ### Claim theorems -/

/-- C1: for every book id absent from the Book table and every payload
(including invalid ones), `PUT /books/{id}` returns 404 with body
`{"error": "Book not found"}` — never 400 — and performs no mutation:
the not-found check precedes validation. -/
theorem put_missing_book_404_no_mutation (st : AppState) (bid : String)
    (d : Payload) (now : Nat) (h : dictGet Book.id st.books bid = none) :
    update_book st bid d now = (⟨404, .err "Book not found"⟩, st) := by
  simp [update_book, h]

/-- C1 witness: id "missing" is absent from the seed table, and a
`PUT` with an empty (hence invalid) payload yields 404, untouched state. -/
theorem put_missing_book_404_no_mutation_witness :
    dictGet Book.id seedState.books "missing" = none ∧
    update_book seedState "missing" [] 5 =
      (⟨404, .err "Book not found"⟩, seedState) :=
  ⟨by decide,
   put_missing_book_404_no_mutation seedState "missing" [] 5 (by decide)⟩

/-- C3: for every payload missing at least one required Book field,
`POST /books` returns 400 with body naming a missing field and leaves
the Book table (indeed the whole state) unchanged. -/
theorem create_book_missing_field_400_no_mutation (st : AppState)
    (d : Payload) (newId : String) (now : Nat)
    (h : ∃ f ∈ requiredBookFields, hasKey d f = false) :
    ∃ f, f ∈ requiredBookFields ∧ hasKey d f = false ∧
      create_book st d newId now =
        (⟨400, .err ("Missing required field: " ++ f)⟩, st) := by
  obtain ⟨f, hf, hmiss⟩ := h
  have hsome : (findMissing requiredBookFields d).isSome := by
    rw [findMissing, List.find?_isSome]
    exact ⟨f, hf, by simp [hmiss]⟩
  obtain ⟨g, hg⟩ := Option.isSome_iff_exists.mp hsome
  refine ⟨g, List.mem_of_find?_eq_some hg, ?_, ?_⟩
  · have := List.find?_some hg
    simpa using this
  · have hg' : findMissing requiredBookFields d = some g := hg
    simp [create_book, hg']

/-- C3 witness: a payload with everything but `price` is rejected with
"Missing required field: price" and the state is unchanged. -/
theorem create_book_missing_field_400_no_mutation_witness :
    (∃ f ∈ requiredBookFields, hasKey exPayloadNoPrice f = false) ∧
    ∃ f, f ∈ requiredBookFields ∧ hasKey exPayloadNoPrice f = false ∧
      create_book seedState exPayloadNoPrice "b9" 7 =
        (⟨400, .err ("Missing required field: " ++ f)⟩, seedState) :=
  ⟨⟨"price", by decide, by decide⟩,
   create_book_missing_field_400_no_mutation seedState exPayloadNoPrice "b9" 7
     ⟨"price", by decide, by decide⟩⟩

/-- C4: for every payload with all required Book fields and a generated
id fresh for the table, `POST /books` returns 201 with a record whose id
is distinct from every existing id, whose `created_at` equals its
`updated_at`, and whose `stock` is the payload's `stock` or 0; the record
is appended to the table under that id. (The uuid generator's freshness
is a hypothesis: the code has no retry-on-collision logic and treats
collisions as negligible.) -/
theorem create_book_valid_201_inserts (st : AppState) (d : Payload)
    (newId : String) (now : Nat)
    (hfresh : ∀ b ∈ st.books, b.id ≠ newId)
    (hvalid : findMissing requiredBookFields d = none) :
    ∃ nb, create_book st d newId now =
        (⟨201, .book nb⟩, { st with books := st.books ++ [nb] }) ∧
      nb.id = newId ∧ (∀ b ∈ st.books, b.id ≠ nb.id) ∧
      nb.created_at = nb.updated_at ∧
      nb.stock = (pget d "stock").getD (.num 0) := by
  refine ⟨buildBook d newId now now, ?_, rfl, ?_, rfl, rfl⟩
  · simp only [create_book, hvalid]
    rw [dictPut_fresh (fun x hx => by simpa [buildBook] using hfresh x hx)]
  · intro b hb
    simpa [buildBook] using hfresh b hb

/-- C4 witness: a full payload with fresh id "b9" at the seed state. -/
theorem create_book_valid_201_inserts_witness :
    (∀ b ∈ seedState.books, b.id ≠ "b9") ∧
    (findMissing requiredBookFields exPayloadFull = none) ∧
    ∃ nb, create_book seedState exPayloadFull "b9" 7 =
        (⟨201, .book nb⟩, { seedState with books := seedState.books ++ [nb] }) ∧
      nb.id = "b9" ∧ (∀ b ∈ seedState.books, b.id ≠ nb.id) ∧
      nb.created_at = nb.updated_at ∧
      nb.stock = (pget exPayloadFull "stock").getD (.num 0) :=
  ⟨by decide, by decide,
   create_book_valid_201_inserts seedState exPayloadFull "b9" 7
     (by decide) (by decide)⟩

/-- C10: `GET /books` with `author_id` provided but equal to the empty
string behaves exactly as if the parameter were absent (the handler
tests truthiness, not presence): with no price filters, all books are
returned. -/
theorem get_books_empty_author_id_is_noop (st : AppState)
    (minp maxp : Option Rat) :
    get_books st (some "") minp maxp = get_books st none minp maxp ∧
    get_books st (some "") none none =
      some ⟨200, .booksList st.books st.books.length⟩ := by
  constructor
  · simp [get_books]
  · simp [get_books]

/-- C5: for every book id present in the table and every payload,
`PATCH /books/{id}` overwrites exactly the schema fields present in the
payload; `id` and `created_at` are unchanged, `updated_at` is stamped to
`now` even for an empty payload, the merged record is returned with 200
and stored under the id, every other table entry is untouched, and the
result depends only on the six schema keys (unknown keys are ignored). -/
theorem patch_book_frame (st : AppState) (bid : String) (d : Payload)
    (now : Nat) (old : Book) (h : dictGet Book.id st.books bid = some old) :
    ∃ b,
      partial_update_book st bid d now =
        (⟨200, .book b⟩, (partial_update_book st bid d now).2) ∧
      b.title = (pget d "title").getD old.title ∧
      b.author_id = (pget d "author_id").getD old.author_id ∧
      b.isbn = (pget d "isbn").getD old.isbn ∧
      b.published_year = (pget d "published_year").getD old.published_year ∧
      b.price = (pget d "price").getD old.price ∧
      b.stock = (pget d "stock").getD old.stock ∧
      b.id = old.id ∧ b.created_at = old.created_at ∧ b.updated_at = now ∧
      dictGet Book.id (partial_update_book st bid d now).2.books bid = some b ∧
      (∀ j, j ≠ bid →
        dictGet Book.id (partial_update_book st bid d now).2.books j =
          dictGet Book.id st.books j) ∧
      (∀ d', (∀ k ∈ bookPatchKeys, pget d' k = pget d k) →
        partial_update_book st bid d' now = partial_update_book st bid d now) := by
  have hid : old.id = bid := dictGet_key h
  refine ⟨{ mergeBook old d with updated_at := now }, ?_, ?_, ?_, ?_, ?_, ?_,
    ?_, ?_, ?_, rfl, ?_, ?_, ?_⟩
  · simp [partial_update_book, h]
  · simp [mergeBook_eq]
  · simp [mergeBook_eq]
  · simp [mergeBook_eq]
  · simp [mergeBook_eq]
  · simp [mergeBook_eq]
  · simp [mergeBook_eq]
  · simp [mergeBook_eq]
  · simp [mergeBook_eq]
  · have hkey : ({ mergeBook old d with updated_at := now } : Book).id = bid := by
      simp [mergeBook_eq, hid]
    simp only [partial_update_book, h]
    rw [show bid = ({ mergeBook old d with updated_at := now } : Book).id
      from hkey.symm]
    exact dictGet_dictPut_self
  · intro j hj
    have hkey : ({ mergeBook old d with updated_at := now } : Book).id = bid := by
      simp [mergeBook_eq, hid]
    simp only [partial_update_book, h]
    exact dictGet_dictPut_ne (by rw [hkey]; exact hj)
  · intro d' hagree
    have h1 := hagree "title" (by simp [bookPatchKeys])
    have h2 := hagree "author_id" (by simp [bookPatchKeys])
    have h3 := hagree "isbn" (by simp [bookPatchKeys])
    have h4 := hagree "published_year" (by simp [bookPatchKeys])
    have h5 := hagree "price" (by simp [bookPatchKeys])
    have h6 := hagree "stock" (by simp [bookPatchKeys])
    simp only [partial_update_book, h, mergeBook_eq, h1, h2, h3, h4, h5, h6]

/-- C5 witness: patching seed book "1" with `{"stock": 5}` (plus an
unknown-key variant) at instant 4. -/
theorem patch_book_frame_witness :
    dictGet Book.id seedState.books "1" = some (seedBooks.get ⟨0, by decide⟩) ∧
    ∃ b,
      partial_update_book seedState "1" exPayloadStock 4 =
        (⟨200, .book b⟩, (partial_update_book seedState "1" exPayloadStock 4).2) ∧
      b.title = (pget exPayloadStock "title").getD (seedBooks.get ⟨0, by decide⟩).title ∧
      b.author_id = (pget exPayloadStock "author_id").getD (seedBooks.get ⟨0, by decide⟩).author_id ∧
      b.isbn = (pget exPayloadStock "isbn").getD (seedBooks.get ⟨0, by decide⟩).isbn ∧
      b.published_year = (pget exPayloadStock "published_year").getD (seedBooks.get ⟨0, by decide⟩).published_year ∧
      b.price = (pget exPayloadStock "price").getD (seedBooks.get ⟨0, by decide⟩).price ∧
      b.stock = (pget exPayloadStock "stock").getD (seedBooks.get ⟨0, by decide⟩).stock ∧
      b.id = (seedBooks.get ⟨0, by decide⟩).id ∧
      b.created_at = (seedBooks.get ⟨0, by decide⟩).created_at ∧
      b.updated_at = 4 ∧
      dictGet Book.id (partial_update_book seedState "1" exPayloadStock 4).2.books "1" = some b ∧
      (∀ j, j ≠ "1" →
        dictGet Book.id (partial_update_book seedState "1" exPayloadStock 4).2.books j =
          dictGet Book.id seedState.books j) ∧
      (∀ d', (∀ k ∈ bookPatchKeys, pget d' k = pget exPayloadStock k) →
        partial_update_book seedState "1" d' 4 =
          partial_update_book seedState "1" exPayloadStock 4) :=
  ⟨by rfl,
   patch_book_frame seedState "1" exPayloadStock 4
     (seedBooks.get ⟨0, by decide⟩) (by rfl)⟩

/-- C6: for every present book id and valid payload, repeating
`PUT /books/{id}` with the same payload yields a record identical in
every field except `updated_at`, which advances monotonically with the
clock; in particular `id` and `created_at` agree across the two
applications. -/
theorem put_book_idempotent_up_to_updated_at (st : AppState) (bid : String)
    (d : Payload) (t1 t2 : Nat) (old : Book)
    (h : dictGet Book.id st.books bid = some old)
    (hvalid : findMissing requiredBookFields d = none) (ht : t1 ≤ t2) :
    ∃ b1,
      (update_book st bid d t1).1 = ⟨200, .book b1⟩ ∧
      (update_book (update_book st bid d t1).2 bid d t2).1 =
        ⟨200, .book { b1 with updated_at := t2 }⟩ ∧
      b1.id = bid ∧ b1.created_at = old.created_at ∧
      b1.updated_at = t1 ∧ b1.updated_at ≤ t2 := by
  refine ⟨buildBook d bid old.created_at t1, ?_, ?_, rfl, rfl, rfl, ht⟩
  · simp [update_book, h, hvalid]
  · have hget : dictGet Book.id (update_book st bid d t1).2.books bid =
        some (buildBook d bid old.created_at t1) := by
      have hst1 : (update_book st bid d t1).2.books =
          dictPut Book.id st.books (buildBook d bid old.created_at t1) := by
        simp [update_book, h, hvalid]
      rw [hst1]
      have : bid = Book.id (buildBook d bid old.created_at t1) := rfl
      rw [this]
      exact dictGet_dictPut_self
    generalize hst : (update_book st bid d t1).2 = st1 at hget ⊢
    simp [update_book, hget, hvalid, buildBook]

/-- C6 witness: putting the same full payload on seed book "2" at
instants 7 and then 9. -/
theorem put_book_idempotent_up_to_updated_at_witness :
    dictGet Book.id seedState.books "2" = some (seedBooks.get ⟨1, by decide⟩) ∧
    findMissing requiredBookFields exPayloadFull = none ∧
    ∃ b1,
      (update_book seedState "2" exPayloadFull 7).1 = ⟨200, .book b1⟩ ∧
      (update_book (update_book seedState "2" exPayloadFull 7).2 "2"
          exPayloadFull 9).1 = ⟨200, .book { b1 with updated_at := 9 }⟩ ∧
      b1.id = "2" ∧ b1.created_at = (seedBooks.get ⟨1, by decide⟩).created_at ∧
      b1.updated_at = 7 ∧ b1.updated_at ≤ 9 :=
  ⟨by rfl, by decide,
   put_book_idempotent_up_to_updated_at seedState "2" exPayloadFull 7 9
     (seedBooks.get ⟨1, by decide⟩) (by rfl) (by decide) (by decide)⟩

theorem dictGet_eq_none_of_not_mem_keys {key : α → String} {xs : List α}
    {i : String} (h : i ∉ xs.map key) : dictGet key xs i = none := by
  induction xs with
  | nil => rfl
  | cons y ys ih =>
      simp only [List.map_cons, List.mem_cons, not_or] at h
      have hy : (key y == i) = false := by simpa using fun e => h.1 e.symm
      simpa [dictGet, List.find?, hy] using ih h.2

theorem dictGet_dictDel_self {key : α → String} {xs : List α} {i : String}
    (h : (xs.map key).Nodup) : dictGet key (dictDel key xs i) i = none := by
  induction xs with
  | nil => rfl
  | cons y ys ih =>
      simp only [List.map_cons, List.nodup_cons] at h
      by_cases hk : key y == i
      · have hyi : key y = i := by simpa using hk
        rw [dictDel, if_pos hk]
        exact dictGet_eq_none_of_not_mem_keys (hyi ▸ h.1)
      · rw [dictDel, if_neg hk]
        simpa [dictGet, List.find?, hk] using ih h.2

theorem mem_dictDel_of_key_ne {key : α → String} {xs : List α} {i : String}
    {x : α} (hx : x ∈ xs) (hne : key x ≠ i) : x ∈ dictDel key xs i := by
  induction xs with
  | nil => cases hx
  | cons y ys ih =>
      by_cases hk : key y == i
      · rw [dictDel, if_pos hk]
        rcases List.mem_cons.mp hx with rfl | h
        · exact absurd (by simpa using hk) hne
        · exact h
      · rw [dictDel, if_neg hk]
        rcases List.mem_cons.mp hx with rfl | h
        · exact List.mem_cons_self _ _
        · exact List.mem_cons_of_mem _ (ih h)

/-- C7: deleting an author removes only that author: the Book table is
entirely unchanged (no cascading delete, no orphan flagging), no author
record other than the deleted one is dropped, nothing is added, and when
the id was present (with the dict invariant of unique keys) it no longer
resolves and the request returns 204. -/
theorem delete_author_books_unchanged (st : AppState) (aid : String) :
    (delete_author st aid).2.books = st.books ∧
    (∀ a ∈ st.authors, a.id ≠ aid → a ∈ (delete_author st aid).2.authors) ∧
    (∀ a ∈ (delete_author st aid).2.authors, a ∈ st.authors) ∧
    (dictContains Author.id st.authors aid = true →
      (delete_author st aid).1 = ⟨204, .empty⟩ ∧
      ((st.authors.map Author.id).Nodup →
        dictGet Author.id (delete_author st aid).2.authors aid = none)) := by
  by_cases hc : dictContains Author.id st.authors aid
  · refine ⟨by simp [delete_author, hc], ?_, ?_, fun _ => ⟨by simp [delete_author, hc], ?_⟩⟩
    · intro a ha hne
      have he : (delete_author st aid).2.authors =
          dictDel Author.id st.authors aid := by
        simp [delete_author, hc]
      rw [he]
      exact mem_dictDel_of_key_ne ha hne
    · intro a ha
      have he : (delete_author st aid).2.authors =
          dictDel Author.id st.authors aid := by
        simp [delete_author, hc]
      rw [he] at ha
      exact mem_dictDel ha
    · intro hnd
      have he : (delete_author st aid).2.authors =
          dictDel Author.id st.authors aid := by
        simp [delete_author, hc]
      rw [he]
      exact dictGet_dictDel_self hnd
  · have hc' : dictContains Author.id st.authors aid = false := by
      simpa using hc
    refine ⟨by simp [delete_author, hc'], ?_, ?_, fun h => by rw [h] at hc'; cases hc'⟩
    · intro a ha _
      simpa [delete_author, hc'] using ha
    · intro a ha
      simpa [delete_author, hc'] using ha

/-- C7 witness: deleting seed author "2" leaves the Book table as it
was — including "To Kill a Mockingbird", whose `author_id` is "2" —
returns 204, and author "2" no longer resolves. -/
theorem delete_author_books_unchanged_witness :
    (delete_author seedState "2").2.books = seedState.books ∧
    (delete_author seedState "2").1 = ⟨204, .empty⟩ ∧
    dictGet Author.id (delete_author seedState "2").2.authors "2" = none :=
  ⟨(delete_author_books_unchanged seedState "2").1,
   ((delete_author_books_unchanged seedState "2").2.2.2 (by decide)).1,
   ((delete_author_books_unchanged seedState "2").2.2.2 (by decide)).2
     (by decide)⟩

/-- C8: `GET /authors/{id}/books` returns 404 with "Author not found"
when the id is absent; otherwise 200 with the author record, the books
whose `author_id` equals the id in table order, and their count — and
when no book matches, count 0 and the empty list while `GET
/authors/{id}` still resolves with 200. -/
theorem author_books_contract (st : AppState) (aid : String) :
    (dictGet Author.id st.authors aid = none →
      get_author_books st aid = ⟨404, .err "Author not found"⟩) ∧
    (∀ a, dictGet Author.id st.authors aid = some a →
      get_author_books st aid =
        ⟨200, .authorBooks a (st.books.filter (fun b => b.author_id.eqStr aid))
          (st.books.filter (fun b => b.author_id.eqStr aid)).length⟩ ∧
      (st.books.filter (fun b => b.author_id.eqStr aid) = [] →
        get_author_books st aid = ⟨200, .authorBooks a [] 0⟩) ∧
      get_author st aid = ⟨200, .author a⟩) := by
  constructor
  · intro h
    simp [get_author_books, h]
  · intro a h
    refine ⟨by simp [get_author_books, h], ?_, by simp [get_author, h]⟩
    intro hempty
    simp [get_author_books, h, hempty]

/-- C8 witness: author "9" is absent (404); after deleting seed book
"3", author "3" still resolves and has zero books. -/
theorem author_books_contract_witness :
    get_author_books seedState "9" = ⟨404, .err "Author not found"⟩ ∧
    get_author_books (delete_book seedState "3").2 "3" =
      ⟨200, .authorBooks (seedAuthors.get ⟨2, by decide⟩) [] 0⟩ ∧
    get_author (delete_book seedState "3").2 "3" =
      ⟨200, .author (seedAuthors.get ⟨2, by decide⟩)⟩ :=
  ⟨(author_books_contract seedState "9").1 (by decide),
   ((author_books_contract (delete_book seedState "3").2 "3").2
     (seedAuthors.get ⟨2, by decide⟩) (by rfl)).2.1 (by rfl),
   ((author_books_contract (delete_book seedState "3").2 "3").2
     (seedAuthors.get ⟨2, by decide⟩) (by rfl)).2.2⟩

theorem Value.eqStr_eq_decide (v : Value) (s : String) :
    v.eqStr s = decide (v = .str s) := by
  cases v with
  | str t => by_cases h : t = s <;> simp [Value.eqStr, h]
  | num q => simp [Value.eqStr]

/-- C2 counterexample: at the seed state with `author_id` provided as
the empty string, the code skips the author filter and returns all three
books, while the claim's filter chain ("equality on author_id if that
parameter is provided") keeps only books with `author_id == ""`, i.e.
none. The claim as stated is therefore false at this input. -/
theorem get_books_claim_counterexample :
    get_books seedState (some "") none none =
      some ⟨200, .booksList seedState.books 3⟩ ∧
    list_books_claim seedState (some "") none none = [] ∧
    get_books seedState (some "") none none ≠
      some ⟨200, .booksList (list_books_claim seedState (some "") none none)
        (list_books_claim seedState (some "") none none).length⟩ := by
  refine ⟨by rfl, by rfl, ?_⟩
  intro h
  rw [show list_books_claim seedState (some "") none none = [] from rfl] at h
  have : seedState.books = ([] : List Book) := by
    have := h.symm.trans (show get_books seedState (some "") none none =
      some ⟨200, .booksList seedState.books seedState.books.length⟩ from rfl)
    simpa using this.symm
  simp [seedState, seedBooks] at this

/-- C2 (amended): for every Book table whose prices are numeric and
every combination of query parameters, `GET /books` returns 200 with the
books in table order filtered conjunctively — equality on `author_id`
when that parameter is provided *and non-empty* (an empty value is a
no-op, see the truthiness test), `price >= min_price` when provided,
`price <= max_price` when provided — together with the count. -/
theorem get_books_filters_conjunctively (st : AppState)
    (aid? : Option String) (minp maxp : Option Rat)
    (h : NumericPrices st.books) :
    get_books st aid? minp maxp =
      some ⟨200, .booksList (list_books_spec st aid? minp maxp)
        (list_books_spec st aid? minp maxp).length⟩ := by
  have key : ∀ l : List Book, NumericPrices l → ∀ mn mx : Option Rat,
      get_books ⟨l, []⟩ none mn mx =
        some ⟨200, .booksList (list_books_spec ⟨l, []⟩ none mn mx)
          (list_books_spec ⟨l, []⟩ none mn mx).length⟩ := by
    intro l hl mn mx
    cases mn with
    | none =>
        cases mx with
        | none => rfl
        | some q2 =>
            simp only [get_books, list_books_spec, Option.pure_def,
              Option.bind_eq_bind, Option.some_bind]
            rw [filterOpt_leNum hl]
            rfl
    | some q1 =>
        cases mx with
        | none =>
            simp only [get_books, list_books_spec, Option.pure_def,
              Option.bind_eq_bind, Option.some_bind]
            rw [filterOpt_geNum hl]
            rfl
        | some q2 =>
            simp only [get_books, list_books_spec, Option.pure_def,
              Option.bind_eq_bind, Option.some_bind]
            rw [filterOpt_geNum hl]
            simp only [Option.some_bind]
            rw [filterOpt_leNum (hl.filter _)]
            rfl
  have code_base : ∀ l : List Book,
      get_books st aid? minp maxp = get_books ⟨l, []⟩ none minp maxp →
      list_books_spec st aid? minp maxp = list_books_spec ⟨l, []⟩ none minp maxp →
      NumericPrices l →
      get_books st aid? minp maxp =
        some ⟨200, .booksList (list_books_spec st aid? minp maxp)
          (list_books_spec st aid? minp maxp).length⟩ := by
    intro l hc hsp hl
    rw [hc, hsp]
    exact key l hl minp maxp
  cases aid? with
  | none => exact code_base st.books rfl rfl h
  | some s =>
      by_cases hs : s = ""
      · have e1 : (s == "") = true := by simpa using hs
        refine code_base st.books ?_ ?_ h
        · simp only [get_books, e1, if_pos]
        · simp only [list_books_spec, hs, if_true]
      · have e1 : (s == "") = false := by simpa using hs
        refine code_base
          (st.books.filter (fun b => b.author_id = Value.str s)) ?_ ?_ (h.filter _)
        · simp only [get_books, e1, Bool.false_eq_true, if_neg, not_false_iff]
          rw [List.filter_congr (fun b _ => Value.eqStr_eq_decide b.author_id s)]
        · simp only [list_books_spec, hs, if_false]

/-- C2 witness for the amended claim: the seed state has numeric prices,
and `GET /books?min_price=13&max_price=14` returns exactly "1984". -/
theorem get_books_filters_conjunctively_witness :
    NumericPrices seedState.books ∧
    get_books seedState none (some 13) (some 14) =
      some ⟨200, .booksList (list_books_spec seedState none (some 13) (some 14))
        (list_books_spec seedState none (some 13) (some 14)).length⟩ :=
  ⟨by decide, get_books_filters_conjunctively seedState none (some 13)
    (some 14) (by decide)⟩

theorem StateOK.mono {st : AppState} {t t' : Nat} (h : StateOK st t)
    (htt : t ≤ t') : StateOK st t' :=
  ⟨fun b hb => ⟨(h.1 b hb).1, le_trans (h.1 b hb).2 htt⟩,
   fun a ha => ⟨(h.2 a ha).1, le_trans (h.2 a ha).2 htt⟩⟩

theorem step_ok {st : AppState} {t : Nat} (op : Op) {now : Nat}
    (h : StateOK st t) (htn : t ≤ now) : StateOK (step st op now) now := by
  have h' : StateOK st now := h.mono htn
  cases op with
  | createBook d newId =>
      show StateOK (create_book st d newId now).2 now
      cases hm : findMissing requiredBookFields d with
      | some f => simpa [create_book, hm] using h'
      | none =>
          refine ⟨?_, by simpa [create_book, hm] using h'.2⟩
          intro b hb
          simp only [create_book, hm] at hb
          rcases mem_dictPut hb with rfl | hb'
          · exact ⟨le_refl now, le_refl now⟩
          · exact h'.1 b hb'
  | updateBook bid d =>
      show StateOK (update_book st bid d now).2 now
      cases hm : dictGet Book.id st.books bid with
      | none => simpa [update_book, hm] using h'
      | some old =>
          cases hv : findMissing requiredBookFields d with
          | some f => simpa [update_book, hm, hv] using h'
          | none =>
              refine ⟨?_, by simpa [update_book, hm, hv] using h'.2⟩
              intro b hb
              simp only [update_book, hm, hv] at hb
              rcases mem_dictPut hb with rfl | hb'
              · have hold := h'.1 old (dictGet_mem hm)
                exact ⟨le_trans hold.1 hold.2, le_refl now⟩
              · exact h'.1 b hb'
  | patchBook bid d =>
      show StateOK (partial_update_book st bid d now).2 now
      cases hm : dictGet Book.id st.books bid with
      | none => simpa [partial_update_book, hm] using h'
      | some old =>
          refine ⟨?_, by simpa [partial_update_book, hm] using h'.2⟩
          intro b hb
          simp only [partial_update_book, hm] at hb
          rcases mem_dictPut hb with rfl | hb'
          · have hold := h'.1 old (dictGet_mem hm)
            refine ⟨?_, le_refl now⟩
            show (mergeBook old d).created_at ≤ now
            rw [mergeBook_eq]
            exact le_trans hold.1 hold.2
          · exact h'.1 b hb'
  | deleteBook bid =>
      show StateOK (delete_book st bid).2 now
      by_cases hc : dictContains Book.id st.books bid
      · refine ⟨?_, by simpa [delete_book, hc] using h'.2⟩
        intro b hb
        simp only [delete_book, hc, if_pos] at hb
        exact h'.1 b (mem_dictDel hb)
      · have hc' : dictContains Book.id st.books bid = false := by simpa using hc
        simpa [delete_book, hc'] using h'
  | createAuthor d newId =>
      show StateOK (create_author st d newId now).2 now
      cases hm : findMissing requiredAuthorFields d with
      | some f => simpa [create_author, hm] using h'
      | none =>
          refine ⟨by simpa [create_author, hm] using h'.1, ?_⟩
          intro a ha
          simp only [create_author, hm] at ha
          rcases mem_dictPut ha with rfl | ha'
          · exact ⟨le_refl now, le_refl now⟩
          · exact h'.2 a ha'
  | updateAuthor aid d =>
      show StateOK (update_author st aid d now).2 now
      cases hm : dictGet Author.id st.authors aid with
      | none => simpa [update_author, hm] using h'
      | some old =>
          cases hv : findMissing requiredAuthorFields d with
          | some f => simpa [update_author, hm, hv] using h'
          | none =>
              refine ⟨by simpa [update_author, hm, hv] using h'.1, ?_⟩
              intro a ha
              simp only [update_author, hm, hv] at ha
              rcases mem_dictPut ha with rfl | ha'
              · have hold := h'.2 old (dictGet_mem hm)
                exact ⟨le_trans hold.1 hold.2, le_refl now⟩
              · exact h'.2 a ha'
  | deleteAuthor aid =>
      show StateOK (delete_author st aid).2 now
      by_cases hc : dictContains Author.id st.authors aid
      · refine ⟨by simpa [delete_author, hc] using h'.1, ?_⟩
        intro a ha
        simp only [delete_author, hc, if_pos] at ha
        exact h'.2 a (mem_dictDel ha)
      · have hc' : dictContains Author.id st.authors aid = false := by
          simpa using hc
        simpa [delete_author, hc'] using h'

theorem run_ok (trace : List (Op × Nat)) (st : AppState) (t : Nat)
    (h : StateOK st t) (hc : chrono t trace = true) :
    StateOK (run st trace) (endTime t trace) := by
  induction trace generalizing st t with
  | nil => exact h
  | cons p rest ih =>
      obtain ⟨op, t'⟩ := p
      rw [chrono, Bool.and_eq_true] at hc
      exact ih (step st op t') t' (step_ok op h (by simpa using hc.1)) hc.2

/-- C9: starting from the seed state, after every sequence of mutating
requests handled at monotonically non-decreasing instants, every record
in both tables satisfies `created_at <= updated_at`: Create stamps them
equal, and every mutation refreshes `updated_at` to the current instant
while preserving `created_at`. -/
theorem created_le_updated_invariant (trace : List (Op × Nat))
    (hc : chrono 0 trace = true) :
    (∀ b ∈ (run seedState trace).books, b.created_at ≤ b.updated_at) ∧
    (∀ a ∈ (run seedState trace).authors, a.created_at ≤ a.updated_at) := by
  have h0 : StateOK seedState 0 := by
    constructor
    · intro b hb
      simp only [seedState, seedBooks, List.mem_cons, List.not_mem_nil,
        or_false] at hb
      rcases hb with rfl | rfl | rfl <;> exact ⟨le_refl 0, le_refl 0⟩
    · intro a ha
      simp only [seedState, seedAuthors, List.mem_cons, List.not_mem_nil,
        or_false] at ha
      rcases ha with rfl | rfl | rfl <;> exact ⟨le_refl 0, le_refl 0⟩
  have h := run_ok trace seedState 0 h0 hc
  exact ⟨fun b hb => (h.1 b hb).1, fun a ha => (h.2 a ha).1⟩

/-- C9 witness: a concrete timed trace exercising every operation. -/
theorem created_le_updated_invariant_witness :
    chrono 0 exTrace = true ∧
    ((run seedState exTrace).books.all
      fun b => b.created_at ≤ b.updated_at) = true ∧
    ((run seedState exTrace).authors.all
      fun a => a.created_at ≤ a.updated_at) = true := by
  refine ⟨by decide, ?_, ?_⟩
  · rw [List.all_eq_true]
    intro b hb
    simpa using (created_le_updated_invariant exTrace (by decide)).1 b hb
  · rw [List.all_eq_true]
    intro a ha
    simpa using (created_le_updated_invariant exTrace (by decide)).2 a ha
